import Mathlib

/-!
Shallow embedding of `src/main.rs` of `theatremix_remote_display`: an OSC
subscription client. The embedding covers the OSC data model, the message
handler `handle_message`, packet dispatch (messages and bundles), the
subscribe-interval computation and one iteration of the agent loop in
`spawn_osc_thread`, the endpoint setup `bind_socket`, and the UI event
application `apply_event` together with the settings-dialog Apply handler.
External effects (name resolution, socket bind/connect, datagram receive)
are passed in as explicit inputs of each loop iteration.
-/

/-- Alias used so that constructor names of `OscType` can mirror the
`rosc::OscType` variant names without shadowing the Lean builtin types. -/
abbrev I32 := Int

abbrev RustStr := String

abbrev RustBool := Bool

/-- Model of `rosc::OscType` restricted to the variants the program
distinguishes: 32-bit integers, strings, and one representative variant
(`Bool`) standing for every other argument type, which `handle_message`
treats uniformly (it only pattern-matches `Int` and `String`). -/
inductive OscType where
  | Int (i : I32)
  | String (s : RustStr)
  | Bool (b : RustBool)
deriving DecidableEq, Repr

/-- Model of `rosc::OscMessage`: an address pattern and an argument list. -/
structure OscMessage where
  addr : String
  args : List OscType
deriving DecidableEq, Repr

/-- Model of `rosc::OscPacket`: a message or a bundle of packets
(timetags are ignored by the program and omitted). -/
inductive OscPacket where
  | Message (msg : OscMessage)
  | Bundle (content : List OscPacket)
deriving Repr

/-- `CueInfo` from `main.rs` lines 13-18. -/
structure CueInfo where
  number : String := ""
  text : String := ""
  color : Option String := none
deriving DecidableEq, Repr

/-- `Default::default()` for `CueInfo`. -/
def CueInfo.default : CueInfo := {}

/-- `NetEvent` from `main.rs` lines 28-35. -/
inductive NetEvent where
  | CueFired (info : CueInfo)
  | SubscribeOk (n : Nat)
  | SubscribeFail
  | Thump
  | Error (msg : String)
deriving DecidableEq, Repr

/-- `NetCmd` from `main.rs` lines 37-39. -/
inductive NetCmd where
  | SetHost (host : String)
deriving DecidableEq, Repr

/-- `handle_message` from `main.rs` lines 378-404. Takes the message and
the current `subscription_expiry` and returns the optional event together
with the updated `subscription_expiry` (the Rust function mutates it
through `&mut u32`). `(*exp).max(2) as u32` is modelled as
`(max exp 2).toNat`, which agrees with the Rust cast because
`max exp 2 ≥ 2 > 0` for every `i32` value `exp`. -/
def handle_message (msg : OscMessage) (subscription_expiry : Nat) :
    Option NetEvent × Nat :=
  if msg.addr = "/subscribeok" then
    match msg.args.get? 0 with
    | some (OscType.Int exp) =>
      (some (NetEvent.SubscribeOk (max exp 2).toNat), (max exp 2).toNat)
    | _ => (none, subscription_expiry)
  else if msg.addr = "/subscribefail" then
    (some NetEvent.SubscribeFail, subscription_expiry)
  else if msg.addr = "/thump" then
    (some NetEvent.Thump, subscription_expiry)
  else if msg.addr = "/cuefired" then
    let info0 := CueInfo.default
    let info1 :=
      match msg.args.get? 0 with
      | some (OscType.String num) => { info0 with number := num }
      | _ => info0
    let info2 :=
      match msg.args.get? 1 with
      | some (OscType.String text) => { info1 with text := text }
      | _ => info1
    let info3 :=
      match msg.args.get? 2 with
      | some (OscType.String color) => { info2 with color := some color }
      | _ => info2
    (some (NetEvent.CueFired info3), subscription_expiry)
  else
    (none, subscription_expiry)

/-- Dispatch of a single decoded message inside the receive arm of the
agent loop (`main.rs` lines 290-294): the event, when produced, is sent
on the channel; the expiry is threaded through. -/
def dispatchMessage (msg : OscMessage) (expiry : Nat) : List NetEvent × Nat :=
  match handle_message msg expiry with
  | (some ev, e) => ([ev], e)
  | (none, e) => ([], e)

/-- The bundle arm of the agent loop (`main.rs` lines 295-305): iterate
over `bundle.content` in order, dispatching exactly the elements that are
themselves messages; any other element (a nested bundle) falls outside
the `if let OscPacket::Message` pattern and is skipped. -/
def dispatchBundleContent : List OscPacket → Nat → List NetEvent × Nat
  | [], e => ([], e)
  | OscPacket.Message msg :: rest, e =>
    let r := dispatchMessage msg e
    let r2 := dispatchBundleContent rest r.2
    (r.1 ++ r2.1, r2.2)
  | OscPacket.Bundle _ :: rest, e => dispatchBundleContent rest e

/-- The full packet match of the receive arm (`main.rs` lines 289-306). -/
def dispatchPacket (pkt : OscPacket) (expiry : Nat) : List NetEvent × Nat :=
  match pkt with
  | OscPacket.Message msg => dispatchMessage msg expiry
  | OscPacket.Bundle content => dispatchBundleContent content expiry

/-- Modelled from the spec: processing a list of messages as if each had
arrived standalone, in order (spec section 4.1: bundles are flattened and
"each contained message is dispatched as if received standalone"). -/
def dispatchStandalone : List OscMessage → Nat → List NetEvent × Nat
  | [], e => ([], e)
  | m :: rest, e =>
    let r := dispatchPacket (OscPacket.Message m) e
    let r2 := dispatchStandalone rest r.2
    (r.1 ++ r2.1, r2.2)

/-- The subscribe interval computed each iteration (`main.rs` lines
268-272), in whole seconds: `max (subscription_expiry / 2) 2` when
`subscription_expiry > 0`, else `2`. -/
def subscribe_interval (subscription_expiry : Nat) : Nat :=
  if subscription_expiry > 0 then max (subscription_expiry / 2) 2 else 2

/-- Result of `format!("{}:32000", host).to_socket_addrs()` plus the
choice of the first returned address, as an explicit input: success with
a first address, an `Ok` iterator that yields no address, or an `Err`. -/
inductive ResolveResult where
  | resolved (addr : String)
  | emptyAddrs
  | resolveErr (e : String)
deriving DecidableEq, Repr

/-- ASCII single-quote character, used by the error-message formats. -/
def squote : String := String.singleton (Char.ofNat 39)

/-- `bind_socket` from `main.rs` lines 319-357, with the outcomes of the
three fallible OS calls (resolve, bind, connect) passed in. Returns the
error events sent on `tx` and the resulting socket (`Ok` = `some` peer
address, `Err` = `none`). -/
def bind_socket (host : String) (r : ResolveResult)
    (bindOk : Bool) (bindDetail : String)
    (connectOk : Bool) (connectDetail : String) :
    List NetEvent × Option String :=
  match r with
  | ResolveResult.resolveErr e =>
    ([NetEvent.Error ("Invalid host address " ++ squote ++ host ++ squote ++ ": " ++ e)], none)
  | ResolveResult.emptyAddrs =>
    ([NetEvent.Error ("Could not resolve host " ++ squote ++ host ++ squote)], none)
  | ResolveResult.resolved addr =>
    if bindOk then
      if connectOk then ([], some addr)
      else ([NetEvent.Error ("Failed to connect to " ++ addr ++ ": " ++ connectDetail)], none)
    else ([NetEvent.Error ("Failed to bind UDP socket: " ++ bindDetail)], none)

/-- The local state of the agent loop in `spawn_osc_thread` (`main.rs`
lines 235-244): current host, optional connected socket (by peer
address), `subscription_expiry`, and the two send timestamps. Times are
in integer milliseconds. -/
structure AgentSt where
  host : String
  socket : Option String
  subscription_expiry : Nat
  last_subscribe : Int
  last_thump : Int
deriving DecidableEq, Repr

/-- The outcome of the bounded `sock.recv` of one iteration (`main.rs`
lines 285-312): a successfully decoded packet, a datagram that failed
OSC decoding, a timeout / would-block error, or any other receive error.
The Rust code has a single `Err(_)` arm covering the last two. -/
inductive RecvOutcome where
  | packet (pkt : OscPacket)
  | badDatagram
  | timeout
  | otherError
deriving Repr

/-- The external inputs of one iteration of the agent loop: at most one
pending command, the outcomes resolution / bind / connect would have if
attempted this iteration, the receive outcome, and the current time in
milliseconds. -/
structure OscEnv where
  cmd : Option NetCmd
  resolve : ResolveResult
  bindOk : Bool
  bindDetail : String
  connectOk : Bool
  connectDetail : String
  recv : RecvOutcome
  now : Int

/-- The command-drain step of one iteration (`main.rs` lines 247-260):
on `SetHost`, rebind the socket, reset `subscription_expiry` to 0 and
set both timestamps to `now - 10 s`, forwarding any error events from
`bind_socket`; with no pending command the state is unchanged. -/
def stepCmd (st : AgentSt) (env : OscEnv) : AgentSt × List NetEvent :=
  match env.cmd with
  | some (NetCmd.SetHost new_host) =>
    let r := bind_socket new_host env.resolve env.bindOk env.bindDetail
      env.connectOk env.connectDetail
    ({ host := new_host, socket := r.2, subscription_expiry := 0,
       last_subscribe := env.now - 10000, last_thump := env.now - 10000 }, r.1)
  | none => (st, [])

/-- The two timed sends of one iteration (`main.rs` lines 268-283):
`/subscribe` when the subscribe interval has elapsed since
`last_subscribe`, then `/thump` when 2 s have elapsed since
`last_thump`; each send records the current time. -/
def stepSends (st : AgentSt) (now : Int) : AgentSt × List OscMessage :=
  let p1 :=
    if 1000 * (subscribe_interval st.subscription_expiry : Int) ≤ now - st.last_subscribe
    then ({ st with last_subscribe := now }, [OscMessage.mk "/subscribe" []])
    else (st, [])
  if (2000 : Int) ≤ now - p1.1.last_thump
  then ({ p1.1 with last_thump := now }, p1.2 ++ [OscMessage.mk "/thump" []])
  else (p1.1, p1.2)

/-- The receive arm of one iteration (`main.rs` lines 285-312): a decoded
packet is dispatched; an undecodable datagram is discarded; every receive
error — timeout or not — falls into the single `Err(_)` arm and is a
no-op. Returns the emitted events and the updated expiry. -/
def stepRecv (recv : RecvOutcome) (expiry : Nat) : List NetEvent × Nat :=
  match recv with
  | RecvOutcome.packet pkt => dispatchPacket pkt expiry
  | RecvOutcome.badDatagram => ([], expiry)
  | RecvOutcome.timeout => ([], expiry)
  | RecvOutcome.otherError => ([], expiry)

/-- One full iteration of the agent loop (`main.rs` lines 246-315):
drain a command, and if no socket exists just sleep and continue;
otherwise perform the timed sends and the bounded receive. Returns the
new state, the OSC messages sent to the peer, and the events sent to the
UI, in order. -/
def agentIter (st : AgentSt) (env : OscEnv) :
    AgentSt × List OscMessage × List NetEvent :=
  let c := stepCmd st env
  match c.1.socket with
  | none => (c.1, [], c.2)
  | some _ =>
    let s := stepSends c.1 env.now
    let r := stepRecv env.recv s.1.subscription_expiry
    ({ s.1 with subscription_expiry := r.2 }, s.2, c.2 ++ r.1)

/-- A run of consecutive agent-loop iterations, concatenating the sends
and the events in order. -/
def agentRun (st : AgentSt) : List OscEnv → AgentSt × List OscMessage × List NetEvent
  | [] => (st, [], [])
  | e :: rest =>
    let r1 := agentIter st e
    let r2 := agentRun r1.1 rest
    (r2.1, r1.2.1 ++ r2.2.1, r1.2.2 ++ r2.2.2)

/-- `CueState` from `main.rs` lines 20-26, with `last_rx` as an optional
millisecond timestamp. -/
structure CueState where
  current : CueInfo
  next : CueInfo
  connected : Bool
  last_rx : Option Int
deriving DecidableEq, Repr

/-- The UI-relevant fields of `TheatreMixApp` (`main.rs` lines 41-51):
the cue state, the active host and the status line. -/
structure TheatreMixApp where
  state : CueState
  host : String
  status : String
deriving DecidableEq, Repr

/-- `TheatreMixApp::new` (`main.rs` lines 53-73): default state except
for the fixed `next.text` sentinel, status `"Connecting..."`. -/
def TheatreMixApp.new (host : String) : TheatreMixApp :=
  { state :=
      { current := CueInfo.default,
        next := { CueInfo.default with text := "(not provided by OSC)" },
        connected := false, last_rx := none },
    host := host, status := "Connecting..." }

/-- `TheatreMixApp::apply_event` (`main.rs` lines 75-97), with
`Instant::now()` passed in as `now`. -/
def apply_event (app : TheatreMixApp) (ev : NetEvent) (now : Int) : TheatreMixApp :=
  match ev with
  | NetEvent.CueFired info =>
    { app with state := { app.state with current := info, last_rx := some now } }
  | NetEvent.SubscribeOk _ =>
    { app with state := { app.state with connected := true }, status := "Subscribed" }
  | NetEvent.SubscribeFail =>
    let st := { app.state with connected := false }
    { app with state := st, status := "Subscription failed" }
  | NetEvent.Thump =>
    { app with state := { app.state with last_rx := some now } }
  | NetEvent.Error msg =>
    let st := { app.state with connected := false }
    { app with state := st, status := "Error: " ++ msg }

/-- The Apply-button handler of the settings dialog (`main.rs` lines
159-175), with the text-field content and the outcome of the validating
resolution passed in. On a nonempty host differing from the current one
that resolves, the host is replaced, status becomes `"Reconnecting..."`
and `connected` is cleared; if it does not resolve, only the status
changes; otherwise nothing happens. The `SetHost` command send and the
config-file write have no effect on the app state and are omitted. -/
def apply_clicked (app : TheatreMixApp) (host_edit : String) (resolves : Bool) :
    TheatreMixApp :=
  let new_host := host_edit.trim
  if new_host ≠ "" ∧ new_host ≠ app.host then
    if resolves then
      let st := { app.state with connected := false }
      { app with host := new_host, status := "Reconnecting...", state := st }
    else
      { app with status := "Invalid host: " ++ new_host }
  else app

/-- One UI-thread action that can touch the app state: applying one
received event (the drain loop of `update`, `main.rs` lines 102-104) or
one click of the settings Apply button. -/
inductive UIAction where
  | recv (ev : NetEvent) (now : Int)
  | applyClicked (host_edit : String) (resolves : Bool)
deriving DecidableEq, Repr

/-- Application of one UI action. -/
def uiStep (app : TheatreMixApp) (a : UIAction) : TheatreMixApp :=
  match a with
  | UIAction.recv ev now => apply_event app ev now
  | UIAction.applyClicked he r => apply_clicked app he r

/-- Application of a sequence of UI actions, oldest first. -/
def uiRun (app : TheatreMixApp) : List UIAction → TheatreMixApp
  | [] => app
  | a :: rest => uiRun (uiStep app a) rest

/-- Modelled from the spec: whether an action is the application of a
subscribe-ok event. -/
def isSubscribeOkAction : UIAction → Bool
  | UIAction.recv (NetEvent.SubscribeOk _) _ => true
  | _ => false

/-- Modelled from the spec: whether, applied to `app`, the action is one
of the invalidators of `connected` named by the spec — a subscribe-fail
event, an error event, or a host change (an action after which the app
host differs). -/
def invalidates (app : TheatreMixApp) : UIAction → Bool
  | UIAction.recv NetEvent.SubscribeFail _ => true
  | UIAction.recv (NetEvent.Error _) _ => true
  | a => decide ((uiStep app a).host ≠ app.host)

/-- Modelled from the spec: no action of the list, applied in sequence
starting from `app`, is an invalidator. -/
def noInvalidatorAfter (app : TheatreMixApp) : List UIAction → Bool
  | [] => true
  | a :: rest => !(invalidates app a) && noInvalidatorAfter (uiStep app a) rest

/-- Modelled from the spec: the string argument of a message at position
`i`, when the argument exists and is a string. -/
def strArg (args : List OscType) (i : Nat) : Option String :=
  match args.get? i with
  | some (OscType.String s) => some s
  | _ => none

/-- Whether resolution of a host failed (either an `Err` from
`to_socket_addrs` or an empty address iterator). -/
def resolutionFails : ResolveResult → Bool
  | ResolveResult.resolved _ => false
  | ResolveResult.emptyAddrs => true
  | ResolveResult.resolveErr _ => true

/-- Helper: the full evaluation of `handle_message` on a `/cuefired`
message, for any argument list. -/
lemma handle_message_cuefired (args : List OscType) (e : Nat) :
    handle_message (OscMessage.mk "/cuefired" args) e =
      (some (NetEvent.CueFired
        { number := (strArg args 0).getD "",
          text := (strArg args 1).getD "",
          color := strArg args 2 }), e) := by
  unfold handle_message strArg
  rcases h0 : args.get? 0 with _ | a0 <;> rcases h1 : args.get? 1 with _ | a1 <;>
    rcases h2 : args.get? 2 with _ | a2 <;>
    simp only [h0, h1, h2] <;>
    (try cases a0) <;> (try cases a1) <;> (try cases a2) <;> rfl

/-- Claim C1: every inbound `/cuefired` message yields a cue-fired event
whose `CueInfo` fields equal the string arguments at positions 0 (number),
1 (text) and 2 (color); a position that is missing or holds a non-string
argument leaves the field at its default (empty string for number and
text, `none` for color); the message is never dropped wholesale (an event
is always produced) and the subscription expiry is untouched. -/
theorem cuefired_event_fields (args : List OscType) (e : Nat) :
    handle_message (OscMessage.mk "/cuefired" args) e =
      (some (NetEvent.CueFired
        { number := (strArg args 0).getD "",
          text := (strArg args 1).getD "",
          color := strArg args 2 }), e) :=
  handle_message_cuefired args e

/-- Claim C2: an inbound `/subscribeok` whose first argument is the
integer `n` sets the subscription lease to `max n 2` and emits a
subscribe-ok event carrying that lease; the stored `Nat` lease coincides
with the integer `max n 2`, and an expiry of 0 or 1 yields a lease of 2. -/
theorem subscribeok_sets_lease (args : List OscType) (e : Nat) (n : Int)
    (h : args.get? 0 = some (OscType.Int n)) :
    handle_message (OscMessage.mk "/subscribeok" args) e =
      (some (NetEvent.SubscribeOk (max n 2).toNat), (max n 2).toNat) ∧
    ((max n 2).toNat : Int) = max n 2 ∧
    ((n = 0 ∨ n = 1) → (max n 2).toNat = 2) := by
  refine ⟨?_, ?_, ?_⟩
  · unfold handle_message
    simp only [h]
    rfl
  · omega
  · rintro (rfl | rfl) <;> rfl

/-- Witness for C2 at `args = [Int 0]`, `e = 7`, `n = 0`. -/
theorem subscribeok_sets_lease_witness :
    handle_message (OscMessage.mk "/subscribeok" [OscType.Int 0]) 7 =
      (some (NetEvent.SubscribeOk (max (0 : Int) 2).toNat), (max (0 : Int) 2).toNat) ∧
    ((max (0 : Int) 2).toNat : Int) = max (0 : Int) 2 ∧
    (((0 : Int) = 0 ∨ (0 : Int) = 1) → (max (0 : Int) 2).toNat = 2) :=
  subscribeok_sets_lease [OscType.Int 0] 7 0 rfl

/-- Claim C9: an inbound `/subscribeok` whose first argument is missing or
not an integer produces no event at all and leaves the subscription
expiry unchanged — dropped wholesale — while `/cuefired` with the same
malformed arguments still produces an event. -/
theorem subscribeok_malformed_dropped (args : List OscType) (e : Nat)
    (h : ∀ n : Int, args.get? 0 ≠ some (OscType.Int n)) :
    handle_message (OscMessage.mk "/subscribeok" args) e = (none, e) ∧
    (handle_message (OscMessage.mk "/cuefired" args) e).1.isSome = true := by
  constructor
  · unfold handle_message
    rcases h0 : args.get? 0 with _ | a0
    · simp only [h0]
      rfl
    · cases a0 with
      | Int i => exact absurd h0 (h i)
      | String s => simp only [h0]; rfl
      | Bool b => simp only [h0]; rfl
  · rw [handle_message_cuefired]
    rfl

/-- Witness for C9 at `args = [String "x"]`, `e = 3`. -/
theorem subscribeok_malformed_dropped_witness :
    handle_message (OscMessage.mk "/subscribeok" [OscType.String "x"]) 3 = (none, 3) ∧
    (handle_message (OscMessage.mk "/cuefired" [OscType.String "x"]) 3).1.isSome = true :=
  subscribeok_malformed_dropped [OscType.String "x"] 3 (by simp)

/-- Helper: dispatching a bundle whose elements are all messages equals
processing those messages standalone in order. -/
lemma dispatchBundleContent_map (msgs : List OscMessage) (e : Nat) :
    dispatchBundleContent (msgs.map OscPacket.Message) e = dispatchStandalone msgs e := by
  induction msgs generalizing e with
  | nil => rfl
  | cons m rest ih =>
    simp only [List.map_cons, dispatchBundleContent, dispatchStandalone, dispatchPacket]
    rw [ih]

/-- Claim C5: for every OSC bundle whose elements are all messages,
dispatching the bundle emits exactly the same event sequence (and the
same final expiry) as dispatching each contained message standalone in
order. -/
theorem bundle_flattening (msgs : List OscMessage) (e : Nat) :
    dispatchPacket (OscPacket.Bundle (msgs.map OscPacket.Message)) e =
      dispatchStandalone msgs e :=
  dispatchBundleContent_map msgs e

/-- Claim C10: a bundle element that is itself a bundle is silently
skipped: dispatching a bundle starting with a nested bundle equals
dispatching the bundle without it, so the nested bundle contributes no
events and no expiry change. -/
theorem nested_bundle_ignored (inner rest : List OscPacket) (e : Nat) :
    dispatchPacket (OscPacket.Bundle (OscPacket.Bundle inner :: rest)) e =
      dispatchPacket (OscPacket.Bundle rest) e := rfl

/-- Claim C3: on an iteration with an endpoint present and no pending
command, the subscribe interval is `max (lease / 2) 2` seconds for a
positive lease and 2 seconds otherwise, and `/subscribe` is sent exactly
when that interval has elapsed since the last subscribe send; a
peer-reported expiry of 0 yields an interval of 2 seconds. -/
theorem subscribe_send_exact (st : AgentSt) (env : OscEnv) (s : String)
    (hsock : st.socket = some s) (hcmd : env.cmd = none) :
    (subscribe_interval st.subscription_expiry =
      if st.subscription_expiry > 0 then max (st.subscription_expiry / 2) 2 else 2) ∧
    (OscMessage.mk "/subscribe" [] ∈ (agentIter st env).2.1 ↔
      1000 * (subscribe_interval st.subscription_expiry : Int) ≤ env.now - st.last_subscribe) ∧
    subscribe_interval (handle_message (OscMessage.mk "/subscribeok" [OscType.Int 0]) 0).2 = 2 := by
  refine ⟨rfl, ?_, by decide⟩
  unfold agentIter
  simp only [stepCmd, hcmd]
  simp only [hsock]
  unfold stepSends
  by_cases hdue : 1000 * (subscribe_interval st.subscription_expiry : Int) ≤ env.now - st.last_subscribe
  · simp only [if_pos hdue]
    by_cases ht : (2000 : Int) ≤ env.now - ({ st with last_subscribe := env.now } : AgentSt).last_thump
    · simp [ht, hdue]
    · simp [ht, hdue]
  · simp only [if_neg hdue]
    by_cases ht : (2000 : Int) ≤ env.now - st.last_thump
    · simp [ht, hdue]
    · simp [ht, hdue]

/-- Witness for C3 with lease 10 at 5000 ms elapsed (interval 5 s). -/
theorem subscribe_send_exact_witness :
    (subscribe_interval 10 = if 10 > 0 then max (10 / 2) 2 else 2) ∧
    (OscMessage.mk "/subscribe" [] ∈
      (agentIter (AgentSt.mk "h" (some "p") 10 0 0)
        (OscEnv.mk none (ResolveResult.resolved "x") true "" true "" RecvOutcome.timeout 5000)).2.1 ↔
      1000 * (subscribe_interval 10 : Int) ≤ 5000 - 0) ∧
    subscribe_interval (handle_message (OscMessage.mk "/subscribeok" [OscType.Int 0]) 0).2 = 2 :=
  subscribe_send_exact (AgentSt.mk "h" (some "p") 10 0 0)
    (OscEnv.mk none (ResolveResult.resolved "x") true "" true "" RecvOutcome.timeout 5000) "p" rfl rfl

/-- Counterexample to C4 as stated: after a receive error that is not a
timeout (`otherError`), the endpoint is not marked for replacement — the
socket is still present, unchanged, after the iteration. -/
theorem recv_error_keeps_endpoint_cex :
    (agentIter (AgentSt.mk "host" (some "peer") 0 0 0)
      (OscEnv.mk none (ResolveResult.resolved "x") true "" true "" RecvOutcome.otherError 0)).1.socket
      = some "peer" := by decide

/-- Claim C4 as amended: every receive error — timeout / would-block or
not — is treated as a no-op: the socket and the subscription expiry are
unchanged and no event is emitted. -/
theorem recv_error_noop (st : AgentSt) (env : OscEnv)
    (hcmd : env.cmd = none)
    (herr : env.recv = RecvOutcome.timeout ∨ env.recv = RecvOutcome.otherError) :
    (agentIter st env).1.socket = st.socket ∧
    (agentIter st env).1.subscription_expiry = st.subscription_expiry ∧
    (agentIter st env).2.2 = [] := by
  unfold agentIter
  simp only [stepCmd, hcmd]
  rcases hsock : st.socket with _ | s
  · simp [hsock]
  · simp only [hsock]
    rcases herr with h | h <;>
      simp only [stepRecv, h, stepSends] <;> split_ifs <;> simp [hsock]

/-- Witness for the amended C4 at a concrete state and a non-timeout
receive error. -/
theorem recv_error_noop_witness :
    ((agentIter (AgentSt.mk "h" (some "p") 3 0 0)
      (OscEnv.mk none (ResolveResult.resolved "x") true "" true "" RecvOutcome.otherError 0)).1.socket
      = (AgentSt.mk "h" (some "p") 3 0 0).socket) ∧
    ((agentIter (AgentSt.mk "h" (some "p") 3 0 0)
      (OscEnv.mk none (ResolveResult.resolved "x") true "" true "" RecvOutcome.otherError 0)).1.subscription_expiry
      = (AgentSt.mk "h" (some "p") 3 0 0).subscription_expiry) ∧
    (agentIter (AgentSt.mk "h" (some "p") 3 0 0)
      (OscEnv.mk none (ResolveResult.resolved "x") true "" true "" RecvOutcome.otherError 0)).2.2 = [] :=
  recv_error_noop _ _ rfl (Or.inr rfl)

/-- Helper: with no socket and no pending command, an iteration changes
nothing, sends nothing and emits nothing. -/
lemma agentIter_idle (st : AgentSt) (env : OscEnv)
    (hsock : st.socket = none) (hcmd : env.cmd = none) :
    agentIter st env = (st, [], []) := by
  unfold agentIter
  simp only [stepCmd, hcmd, hsock]

/-- Helper: with no socket, a run of command-free iterations changes
nothing, sends nothing and emits nothing. -/
lemma agentRun_idle (st : AgentSt) (envs : List OscEnv)
    (hsock : st.socket = none) (hcmd : ∀ e ∈ envs, e.cmd = none) :
    agentRun st envs = (st, [], []) := by
  induction envs with
  | nil => rfl
  | cons e rest ih =>
    simp only [agentRun]
    rw [agentIter_idle st e hsock (hcmd e (by simp)),
      ih (fun x hx => hcmd x (by simp [hx]))]
    simp

/-- Claim C6: a `SetHost` command whose host fails resolution leaves the
agent with no endpoint, a reset lease and reset timers, and across that
iteration and any number of following command-free iterations exactly one
error event is emitted and nothing is sent on the network. -/
theorem set_host_resolution_failure (st : AgentSt) (env : OscEnv)
    (envs : List OscEnv) (h : String)
    (hc : env.cmd = some (NetCmd.SetHost h))
    (hr : resolutionFails env.resolve = true)
    (hn : ∀ x ∈ envs, x.cmd = none) :
    ∃ reason, agentRun st (env :: envs) =
      (AgentSt.mk h none 0 (env.now - 10000) (env.now - 10000), [], [NetEvent.Error reason]) := by
  have hiter : ∃ reason, agentIter st env =
      (AgentSt.mk h none 0 (env.now - 10000) (env.now - 10000), [], [NetEvent.Error reason]) := by
    unfold agentIter stepCmd
    simp only [hc]
    rcases hres : env.resolve with addr | _ | e
    · rw [hres] at hr; simp [resolutionFails] at hr
    · exact ⟨"Could not resolve host " ++ squote ++ h ++ squote, by simp [bind_socket]⟩
    · exact ⟨"Invalid host address " ++ squote ++ h ++ squote ++ ": " ++ e, by simp [bind_socket]⟩
  obtain ⟨reason, hiter⟩ := hiter
  refine ⟨reason, ?_⟩
  simp only [agentRun, hiter]
  rw [agentRun_idle _ envs rfl hn]
  simp

/-- Witness for C6: a concrete failing resolution followed by no further
commands. -/
theorem set_host_resolution_failure_witness :
    ∃ reason, agentRun (AgentSt.mk "old" (some "p") 5 0 0)
        [OscEnv.mk (some (NetCmd.SetHost "badhost")) (ResolveResult.resolveErr "dns down")
          true "" true "" RecvOutcome.timeout 0] =
      (AgentSt.mk "badhost" none 0 ((0 : Int) - 10000) ((0 : Int) - 10000), [],
        [NetEvent.Error reason]) :=
  set_host_resolution_failure (AgentSt.mk "old" (some "p") 5 0 0)
    (OscEnv.mk (some (NetCmd.SetHost "badhost")) (ResolveResult.resolveErr "dns down")
      true "" true "" RecvOutcome.timeout 0) [] "badhost" rfl rfl (by simp)

/-- Counterexample to C8 as stated: after `/subscribeok` with `n = 2` the
claimed deadline is `max(n, 2) / 2 = 1` second, but at exactly 1000 ms
elapsed since the last subscribe send the iteration does not send
`/subscribe` (the code interval is `max (max n 2 / 2) 2 = 2` seconds). -/
theorem resub_deadline_cex :
    (handle_message (OscMessage.mk "/subscribeok" [OscType.Int 2]) 0).2 = 2 ∧
    500 * max (2 : Int) 2 = 1000 ∧
    ¬ (OscMessage.mk "/subscribe" [] ∈
      (agentIter (AgentSt.mk "h" (some "p") 2 0 1000)
        (OscEnv.mk none (ResolveResult.resolved "x") true "" true "" RecvOutcome.timeout 1000)).2.1) := by
  decide

/-- Claim C8 as amended: after an inbound `/subscribeok` with nonnegative
integer argument `n`, the effective re-subscribe interval is
`max (n / 2) 2` seconds (integer division) — not `max n 2 / 2` — and the
next `/subscribe` becomes due exactly when that interval has elapsed. -/
theorem effective_resub_interval (n : Int) (e : Nat) (hn : 0 ≤ n) :
    subscribe_interval (handle_message (OscMessage.mk "/subscribeok" [OscType.Int n]) e).2 =
      max (n.toNat / 2) 2 := by
  have h2 : (handle_message (OscMessage.mk "/subscribeok" [OscType.Int n]) e).2 =
      (max n 2).toNat := rfl
  rw [h2]
  unfold subscribe_interval
  rw [if_pos (by omega)]
  omega

/-- Witness for the amended C8 at `n = 2`. -/
theorem effective_resub_interval_witness :
    subscribe_interval (handle_message (OscMessage.mk "/subscribeok" [OscType.Int 2]) 0).2 =
      max ((2 : Int).toNat / 2) 2 :=
  effective_resub_interval 2 0 (by norm_num)

/-- Helper: running UI actions over an appended list composes. -/
lemma uiRun_append (app : TheatreMixApp) (l1 l2 : List UIAction) :
    uiRun app (l1 ++ l2) = uiRun (uiRun app l1) l2 := by
  induction l1 generalizing app with
  | nil => rfl
  | cons a rest ih => simp only [List.cons_append, uiRun, List.append_eq, ih]

/-- Helper: `noInvalidatorAfter` over a snoc splits into the front run
and the invalidation check of the last action at the evolved state. -/
lemma noInvalidatorAfter_append (app : TheatreMixApp) (l : List UIAction) (b : UIAction) :
    noInvalidatorAfter app (l ++ [b]) =
      (noInvalidatorAfter app l && !(invalidates (uiRun app l) b)) := by
  induction l generalizing app with
  | nil => simp [noInvalidatorAfter, uiRun]
  | cons a rest ih =>
    simp only [List.cons_append, noInvalidatorAfter, List.append_eq, ih, uiRun, Bool.and_assoc]

/-- Helper: applying a received event never changes the configured host. -/
lemma apply_event_host (app : TheatreMixApp) (ev : NetEvent) (t : Int) :
    (apply_event app ev t).host = app.host := by
  cases ev <;> rfl

/-- Helper: a received event other than subscribe-fail and error is not
an invalidator. -/
lemma invalidates_recv_benign (app : TheatreMixApp) (ev : NetEvent) (t : Int)
    (h : ev ≠ NetEvent.SubscribeFail) (h2 : ∀ m, ev ≠ NetEvent.Error m) :
    invalidates app (UIAction.recv ev t) = false := by
  cases ev with
  | CueFired info => simp [invalidates, uiStep, apply_event_host]
  | SubscribeOk n => simp [invalidates, uiStep, apply_event_host]
  | SubscribeFail => exact absurd rfl h
  | Thump => simp [invalidates, uiStep, apply_event_host]
  | Error m => exact absurd rfl (h2 m)

/-- Helper: an Apply click that leaves the host unchanged is not an
invalidator. -/
lemma invalidates_apply_of_host_eq (app : TheatreMixApp) (he : String) (r : Bool)
    (h : (apply_clicked app he r).host = app.host) :
    invalidates app (UIAction.applyClicked he r) = false := by
  simp [invalidates, uiStep, h]

/-- Helper: an Apply click that leaves the host unchanged also leaves
`connected` unchanged. -/
lemma apply_clicked_connected_of_host_eq (app : TheatreMixApp) (he : String) (r : Bool)
    (h : (apply_clicked app he r).host = app.host) :
    (apply_clicked app he r).state.connected = app.state.connected := by
  unfold apply_clicked at h ⊢
  by_cases hg : he.trim ≠ "" ∧ he.trim ≠ app.host
  · rw [if_pos hg] at h ⊢
    cases r with
    | true => simp at h; exact absurd h hg.2
    | false => rfl
  · rw [if_neg hg] at h ⊢

/-- Helper: an Apply click that changes the host clears `connected`. -/
lemma apply_clicked_connected_of_host_ne (app : TheatreMixApp) (he : String) (r : Bool)
    (h : (apply_clicked app he r).host ≠ app.host) :
    (apply_clicked app he r).state.connected = false := by
  unfold apply_clicked at h ⊢
  by_cases hg : he.trim ≠ "" ∧ he.trim ≠ app.host
  · rw [if_pos hg] at h ⊢
    cases r with
    | true => rfl
    | false => simp at h
  · rw [if_neg hg] at h
    exact absurd rfl h

/-- Claim C7: starting from the initial UI state (`connected = false`),
if after applying any sequence of events and Apply clicks the UI reports
`connected = true`, then some subscribe-ok event was applied and no
subscribe-fail event, error event, or host change was applied after it. -/
theorem connected_only_after_subscribeok (h0 : String) (acts : List UIAction)
    (hc : (uiRun (TheatreMixApp.new h0) acts).state.connected = true) :
    ∃ pre a post, acts = pre ++ a :: post ∧ isSubscribeOkAction a = true ∧
      noInvalidatorAfter (uiRun (TheatreMixApp.new h0) (pre ++ [a])) post = true := by
  revert hc
  induction acts using List.reverseRecOn with
  | nil =>
    intro hc
    simp [uiRun, TheatreMixApp.new] at hc
  | append_singleton l b ih =>
    intro hc
    rw [uiRun_append] at hc
    simp only [uiRun] at hc
    cases b with
    | recv ev t =>
      cases ev with
      | SubscribeOk n =>
        exact ⟨l, UIAction.recv (NetEvent.SubscribeOk n) t, [], rfl, rfl, rfl⟩
      | SubscribeFail => simp [uiStep, apply_event] at hc
      | Error m => simp [uiStep, apply_event] at hc
      | CueFired info =>
        have hc' : (uiRun (TheatreMixApp.new h0) l).state.connected = true := hc
        obtain ⟨pre, a, post, hsplit, hsub, hninv⟩ := ih hc'
        refine ⟨pre, a, post ++ [UIAction.recv (NetEvent.CueFired info) t], ?_, hsub, ?_⟩
        · rw [hsplit]; simp
        · rw [noInvalidatorAfter_append, hninv]
          have hrw : uiRun (uiRun (TheatreMixApp.new h0) (pre ++ [a])) post =
              uiRun (TheatreMixApp.new h0) l := by
            rw [← uiRun_append, List.append_assoc, List.singleton_append, ← hsplit]
          rw [hrw, invalidates_recv_benign _ _ _ (by simp) (by simp)]
          rfl
      | Thump =>
        have hc' : (uiRun (TheatreMixApp.new h0) l).state.connected = true := hc
        obtain ⟨pre, a, post, hsplit, hsub, hninv⟩ := ih hc'
        refine ⟨pre, a, post ++ [UIAction.recv NetEvent.Thump t], ?_, hsub, ?_⟩
        · rw [hsplit]; simp
        · rw [noInvalidatorAfter_append, hninv]
          have hrw : uiRun (uiRun (TheatreMixApp.new h0) (pre ++ [a])) post =
              uiRun (TheatreMixApp.new h0) l := by
            rw [← uiRun_append, List.append_assoc, List.singleton_append, ← hsplit]
          rw [hrw, invalidates_recv_benign _ _ _ (by simp) (by simp)]
          rfl
    | applyClicked he r =>
      simp only [uiStep] at hc
      by_cases hh : (apply_clicked (uiRun (TheatreMixApp.new h0) l) he r).host =
          (uiRun (TheatreMixApp.new h0) l).host
      · have hc' : (uiRun (TheatreMixApp.new h0) l).state.connected = true := by
          rw [← apply_clicked_connected_of_host_eq _ he r hh]
          exact hc
        obtain ⟨pre, a, post, hsplit, hsub, hninv⟩ := ih hc'
        refine ⟨pre, a, post ++ [UIAction.applyClicked he r], ?_, hsub, ?_⟩
        · rw [hsplit]; simp
        · rw [noInvalidatorAfter_append, hninv]
          have hrw : uiRun (uiRun (TheatreMixApp.new h0) (pre ++ [a])) post =
              uiRun (TheatreMixApp.new h0) l := by
            rw [← uiRun_append, List.append_assoc, List.singleton_append, ← hsplit]
          rw [hrw, invalidates_apply_of_host_eq _ he r hh]
          rfl
      · rw [apply_clicked_connected_of_host_ne _ he r hh] at hc
        cases hc

/-- Witness for C7: one subscribe-ok event makes the UI connected, and
the theorem then locates it with nothing after it. -/
theorem connected_only_after_subscribeok_witness :
    ∃ pre a post,
      ([UIAction.recv (NetEvent.SubscribeOk 10) 0] : List UIAction) = pre ++ a :: post ∧
      isSubscribeOkAction a = true ∧
      noInvalidatorAfter (uiRun (TheatreMixApp.new "127.0.0.1") (pre ++ [a])) post = true :=
  connected_only_after_subscribeok "127.0.0.1"
    [UIAction.recv (NetEvent.SubscribeOk 10) 0] rfl
